import Mathlib

/-!
Shallow embedding of the client-side retrieval/attribution code of the
ChatWithDoc repository (file `src/unnamed/part_000`, duplicated in
`src/README.md`): the page-attribution heuristic `findPageForText`, the
answer formatter `formatAIResponse`, and the chat send path `sendMessage` /
`askSuggestedQuestion`.  Strings are modelled as `List Char` where
convenient; the JavaScript regexes are transcribed as explicit character
scans.
-/

namespace ChatWithDoc

/-- The whitespace characters of the JavaScript `\s` class that can occur in
this code path (ASCII whitespace plus NBSP); also used for `String.trim`. -/
def isJsSpace (c : Char) : Bool :=
  c = ' ' || c = '\t' || c = '\n' || c = '\r' || c = '\x0b' || c = '\x0c' || c = ' '

/-- `toLowerCase` on the ASCII range (the only case mapping `Char.toLower`
performs, and the only one the claims exercise). -/
def lowerChars (l : List Char) : List Char := l.map Char.toLower

/-- JavaScript `String.prototype.trim`: drop whitespace from both ends. -/
def jsTrim (l : List Char) : List Char :=
  ((l.dropWhile isJsSpace).reverse.dropWhile isJsSpace).reverse

/-- The JavaScript `\w` class: `[A-Za-z0-9_]`. -/
def isWordChar (c : Char) : Bool := c.isAlpha || c.isDigit || c = '_'

/-- `replace(/[^\w\s]/g, ' ')`: every character that is neither a word
character nor whitespace becomes a space. -/
def scrubPunct (l : List Char) : List Char :=
  l.map (fun c => if isWordChar c || isJsSpace c then c else ' ')

/-- Helper for `splitWs`: accumulate the current token (reversed) while
scanning.  Produces the maximal runs of non-whitespace characters. -/
def splitWsAux : List Char → List Char → List (List Char)
  | [], acc => if acc.isEmpty then [] else [acc.reverse]
  | c :: rest, acc =>
    if isJsSpace c then
      if acc.isEmpty then splitWsAux rest [] else acc.reverse :: splitWsAux rest []
    else splitWsAux rest (c :: acc)

/-- `split(/\s+/)` restricted to its non-empty pieces.  (JavaScript's split
also yields an empty string at each end when the input starts/ends with
whitespace; those pieces have length 0 and are removed by the
`length > 3` filter that follows every use of this function.) -/
def splitWs (l : List Char) : List (List Char) := splitWsAux l []

/-- `cleanSearch.replace(/[^\w\s]/g, ' ').split(/\s+/).filter(w => w.length > 3)`. -/
def meaningfulWords (cleanSearch : List Char) : List (List Char) :=
  (splitWs (scrubPunct cleanSearch)).filter (fun w => 3 < w.length)

/-- Does `hay` start with `needle`? -/
def startsList : List Char → List Char → Bool
  | [], _ => true
  | _ :: _, [] => false
  | a :: as, b :: bs => a = b && startsList as bs

/-- JavaScript `hay.includes(needle)` (substring containment). -/
def includesList (hay needle : List Char) : Bool :=
  match hay with
  | [] => needle.isEmpty
  | _ :: t => startsList needle hay || includesList t needle

/-- The per-page score body of `findPageForText`:
`toLowerCase` the page text, add 100 when it contains `cleanSearch`, and add
10 for every element of `words` (the `forEach` visits duplicates too) that
it contains. -/
def pageScore (cleanSearch : List Char) (words : List (List Char)) (pageText : String) : Nat :=
  let pageTextLower := lowerChars pageText.data
  (if includesList pageTextLower cleanSearch then 100 else 0)
    + 10 * words.countP (fun w => includesList pageTextLower w)

/-- One iteration of the `for (pageNum = 1; ...)` loop: a missing entry and
an empty page text are skipped (`if (!pageText) continue`); otherwise the
best match is replaced exactly when the new score is strictly larger. -/
def stepBest (cleanSearch : List Char) (words : List (List Char))
    (pageTextContent : Nat → Option String) (best : Nat × Nat) (pageNum : Nat) : Nat × Nat :=
  match pageTextContent pageNum with
  | none => best
  | some pageText =>
    if pageText = "" then best
    else
      let score := pageScore cleanSearch words pageText
      if best.2 < score then (pageNum, score) else best

/-- The scoring loop over a list of page numbers, carrying `bestMatch` as a
`(page, score)` pair. -/
def scanPages (cleanSearch : List Char) (words : List (List Char))
    (pageTextContent : Nat → Option String) : List Nat → Nat × Nat → Nat × Nat
  | [], best => best
  | p :: rest, best =>
    scanPages cleanSearch words pageTextContent rest (stepBest cleanSearch words pageTextContent best p)

/-- The pages visited by the loop: `[1, 2, ..., totalPages]`. -/
def pageList (totalPages : Nat) : List Nat := (List.range totalPages).map (· + 1)

/-- `searchText.toLowerCase().trim()`. -/
def cleanOf (searchText : String) : List Char := jsTrim (lowerChars searchText.data)

/-- The score a run of the loop associates to the page-map entry `pt`
(0 when the page is missing or empty, i.e. skipped). -/
def effScore (cleanSearch : List Char) (words : List (List Char)) (pt : Option String) : Nat :=
  match pt with
  | none => 0
  | some t => if t = "" then 0 else pageScore cleanSearch words t

/-- `findPageForText(searchText)` from `src/unnamed/part_000` lines 652-688.
`none` models a null/undefined argument (`!searchText` also catches the
empty string).  The global `pageTextContent` object and `totalPages` counter
the function reads are passed explicitly; the `!pageTextContent` guard of
the source never fires because that global is initialised to an object. -/
def findPageForText (searchText : Option String) (pageTextContent : Nat → Option String)
    (totalPages : Nat) : Nat :=
  match searchText with
  | none => 1
  | some s =>
    if s = "" then 1
    else
      let cleanSearch := cleanOf s
      let words := meaningfulWords cleanSearch
      if words = [] then 1
      else
        let best := scanPages cleanSearch words pageTextContent (pageList totalPages) (1, 0)
        if 0 < best.2 then best.1 else 1

/-- The score the code assigns to one (segment, page text) pair, with the
segment preprocessed exactly as `findPageForText` does. -/
def segmentPageScore (segment : String) (pageText : String) : Nat :=
  let cleanSearch := cleanOf segment
  pageScore cleanSearch (meaningfulWords cleanSearch) pageText

/-- The score of page `p` of the page map for a given segment (0 for a
missing or empty page). -/
def scoreOfPage (segment : String) (pageTextContent : Nat → Option String) (p : Nat) : Nat :=
  let cleanSearch := cleanOf segment
  effScore cleanSearch (meaningfulWords cleanSearch) (pageTextContent p)

/-! ### `formatAIResponse` (lines 616-650) -/

/-- The characters of the list-marker class `[â€˘\-]` exactly as they stand
in the source (a mojibake rendering of the bullet `•`, plus the dash). -/
def bulletChars : List Char := ['â', '€', '˘', '-']

/-- Does the string start with `\d+\.` (one or more digits then a dot)? -/
def digitsThenDot (s : List Char) : Bool :=
  !(s.takeWhile Char.isDigit).isEmpty &&
    (match s.dropWhile Char.isDigit with
     | '.' :: _ => true
     | _ => false)

/-- The test `sentence.match(/^[â€˘\-]|^\d+\./)`. -/
def isListMarker (s : List Char) : Bool :=
  match s with
  | [] => false
  | c :: rest => bulletChars.contains c || digitsThenDot (c :: rest)

/-- `sentence.replace(/^[â€˘\-]\s*|^\d+\.\s*/, '')`: remove one marker
character (or a digit run plus dot) and the whitespace after it. -/
def stripMarker (s : List Char) : List Char :=
  match s with
  | [] => []
  | c :: rest =>
    if bulletChars.contains c then rest.dropWhile isJsSpace
    else if digitsThenDot (c :: rest) then
      (((c :: rest).dropWhile Char.isDigit).drop 1).dropWhile isJsSpace
    else c :: rest

/-- Sentence-final punctuation, the lookbehind class of the splitting regex. -/
def isSentEnd (c : Char) : Bool := c = '.' || c = '!' || c = '?'

/-- `answer.split(/(?<=[.!?])\s+/)`: cut at every maximal whitespace run
whose preceding character is `.`, `!` or `?`.  `acc` is the current piece
reversed; `skipping` records that we are inside the separator run. -/
def splitSentencesAux : List Char → List Char → Bool → List String
  | [], acc, _ => [String.mk acc.reverse]
  | c :: rest, acc, skipping =>
    if skipping && isJsSpace c then splitSentencesAux rest acc skipping
    else if !skipping && isJsSpace c &&
        (match acc with | p :: _ => isSentEnd p | [] => false) then
      String.mk acc.reverse :: splitSentencesAux rest [] true
    else splitSentencesAux rest (c :: acc) false

/-- `answer.replace(/\*/g, '')`. -/
def stripStars (s : List Char) : List Char := s.filter (fun c => c ≠ '*')

/-- An apostrophe (using its code point keeps quoting simple). -/
def apos : Char := Char.ofNat 39

/-- The marker phrase of a refusal sentence. -/
def noInfoPhrase : List Char :=
  ['d', 'o', 'n', apos, 't'] ++ (" have information").data

/-- `sentence.toLowerCase().includes("don't have information")`. -/
def mentionsNoInfo (sentence : List Char) : Bool :=
  includesList (lowerChars sentence) noInfoPhrase

/-- One rendered answer segment: its text, the page reference it carries
(`none` when no page link is rendered) and whether it was rendered as a
list item.  Abstracts one block of the HTML `formatAIResponse` emits. -/
structure Segment where
  text : String
  page : Option Nat
  bullet : Bool
deriving Repr, DecidableEq

/-- The body of the `sentences.forEach` loop of `formatAIResponse`:
classify one sentence and attach its page reference. -/
def renderSentence (pageTextContent : Nat → Option String) (totalPages : Nat)
    (sentence : String) : Option Segment :=
  let s := jsTrim sentence.data
  if s = [] then none
  else if isListMarker s then
    let content := stripMarker s
    some ⟨String.mk content,
      some (findPageForText (some (String.mk content)) pageTextContent totalPages), true⟩
  else if mentionsNoInfo s then
    some ⟨String.mk s, none, false⟩
  else
    some ⟨String.mk s,
      some (findPageForText (some (String.mk s)) pageTextContent totalPages), false⟩

/-- `formatAIResponse(answer)` as the list of segments it renders (the
wrapping HTML markup is not modelled; each emitted block corresponds to one
`Segment`). -/
def formatAIResponse (answer : String) (pageTextContent : Nat → Option String)
    (totalPages : Nat) : List Segment :=
  let cleaned := jsTrim (stripStars answer.data)
  let sentences := (splitSentencesAux cleaned [] false).filter (fun s => jsTrim s.data ≠ [])
  sentences.filterMap (renderSentence pageTextContent totalPages)

/-! ### Chat message flow (`sendMessage`, lines 570-614, and
`askSuggestedQuestion`, lines 764-774) -/

/-- One entry of the messages container. -/
inductive ChatMessage where
  | user (content : String)
  | aiSegments (segments : List Segment)
  | aiText (content : String)

/-- Outcome of the `fetch('/chat', ...)` call: a successful JSON body with
`success: true` and an answer, a body with `success: false` and an optional
message, or a thrown network error. -/
inductive ChatOutcome where
  | success (answer : String)
  | failure (message : Option String)
  | networkError

/-- JavaScript `a || b` for an optional string (empty string is falsy). -/
def jsOr (m : Option String) (d : String) : String :=
  match m with
  | none => d
  | some s => if s = "" then d else s

/-- The observable client state: the global flags and the chat transcript,
plus the extracted per-page text and page count the attribution reads. -/
structure ClientState where
  documentProcessed : Bool
  isProcessingMessage : Bool
  sendButtonDisabled : Bool
  messageInput : String
  messages : List ChatMessage
  pageTextContent : Nat → Option String
  totalPages : Nat

/-- `sendMessage()` as a transition on the client state, parametrised by the
outcome of the `/chat` request.  The returned Bool records whether the
request was issued at all.  The guard, the mutations before the request,
the three response paths and the `finally` block follow the source. -/
def sendMessage (st : ClientState) (outcome : ChatOutcome) : ClientState × Bool :=
  let message := String.mk (jsTrim st.messageInput.data)
  if message = "" ∨ st.documentProcessed = false ∨ st.isProcessingMessage = true then (st, false)
  else
    let st1 : ClientState :=
      { st with isProcessingMessage := true, sendButtonDisabled := true,
                messageInput := "",
                messages := st.messages ++ [ChatMessage.user message] }
    let st2 : ClientState :=
      match outcome with
      | ChatOutcome.success answer =>
        { st1 with messages := st1.messages ++
            [ChatMessage.aiSegments (formatAIResponse answer st.pageTextContent st.totalPages)] }
      | ChatOutcome.failure m =>
        { st1 with messages := st1.messages ++
            [ChatMessage.aiText ("Error: " ++ jsOr m "Unable to process your request")] }
      | ChatOutcome.networkError =>
        { st1 with messages := st1.messages ++
            [ChatMessage.aiText "Error: Unable to connect to server. Please try again."] }
    ({ st2 with isProcessingMessage := false, sendButtonDisabled := false }, true)

/-- `askSuggestedQuestion(question)`: bail out while a message is being
processed, otherwise put the question in the input box and send it. -/
def askSuggestedQuestion (st : ClientState) (question : String) (outcome : ChatOutcome) :
    ClientState × Bool :=
  if st.isProcessingMessage = true then (st, false)
  else sendMessage { st with messageInput := question } outcome

/-- `findPageForText` as it actually runs in the page: reading the globals
from the client state and leaving the state untouched (the source contains
no assignment to any global). -/
def findPageForTextApp (st : ClientState) (searchText : Option String) : Nat × ClientState :=
  match searchText with
  | none => (1, st)
  | some s =>
    if s = "" then (1, st)
    else
      let cleanSearch := cleanOf s
      let words := meaningfulWords cleanSearch
      if words = [] then (1, st)
      else
        let best := scanPages cleanSearch words st.pageTextContent (pageList st.totalPages) (1, 0)
        (if 0 < best.2 then best.1 else 1, st)

/-! ### Spec-side score formulations, for comparison with the code -/

/-- The score as claim C1 words it: 10 points for each DISTINCT content
word (the code's `forEach` counts duplicated words once per occurrence). -/
def claimScoreDistinct (segment pageText : String) : Nat :=
  let cleanSearch := cleanOf segment
  let pageTextLower := lowerChars pageText.data
  (if includesList pageTextLower cleanSearch then 100 else 0)
    + 10 * (meaningfulWords cleanSearch).dedup.countP (fun w => includesList pageTextLower w)

/-- The code's score written as the amended claim words it: 10 points for
each content-word occurrence, counted with multiplicity. -/
def claimScoreMulti (segment pageText : String) : Nat :=
  let cleanSearch := cleanOf segment
  let pageTextLower := lowerChars pageText.data
  (if includesList pageTextLower cleanSearch then 100 else 0)
    + ((meaningfulWords cleanSearch).map
        (fun w => if includesList pageTextLower w then 10 else 0)).sum

/-- Collapse every whitespace run to a single space (`prevSpace` records
whether the previous kept character was a space). -/
def collapseWsAux : List Char → Bool → List Char
  | [], _ => []
  | c :: rest, prevSpace =>
    if isJsSpace c then
      if prevSpace then collapseWsAux rest true else ' ' :: collapseWsAux rest true
    else c :: collapseWsAux rest false

/-- Collapse whitespace runs to single spaces. -/
def collapseWs (l : List Char) : List Char := collapseWsAux l false

/-- The normalization claim C2 describes: case-fold, strip punctuation,
collapse whitespace (and trim the ends). -/
def specNormalize (s : String) : List Char :=
  jsTrim (collapseWs (scrubPunct (lowerChars s.data)))

/-- The score with BOTH strings normalized as claim C2 states (substring
test and word tests on the punctuation-free, case-folded,
whitespace-collapsed forms). -/
def claimScoreNormalized (segment pageText : String) : Nat :=
  let seg := specNormalize segment
  let pg := specNormalize pageText
  (if includesList pg seg then 100 else 0)
    + ((((splitWs seg).filter (fun w => 3 < w.length)).map
        (fun w => if includesList pg w then 10 else 0))).sum

/-- The normalization the code actually performs, spelled out: the segment
is case-folded and trimmed (punctuation retained) for the substring test;
punctuation is replaced by spaces only while extracting the content words;
the page text is only case-folded. -/
def claimScoreCodeNorm (segment pageText : String) : Nat :=
  let seg := jsTrim (lowerChars segment.data)
  let pg := lowerChars pageText.data
  (if includesList pg seg then 100 else 0)
    + (((splitWs (scrubPunct seg)).filter (fun w => 3 < w.length)).map
        (fun w => if includesList pg w then 10 else 0)).sum

/-! ### Concrete inputs used by counterexamples and witnesses -/

/-- Page map for the C3 counterexample: the segment `"cat dog"` (no token
longer than 3 characters) appears verbatim only on page 2. -/
def pmCatDog : Nat → Option String :=
  fun n => if n = 1 then some "zzz" else if n = 2 then some "cat dog here" else none

/-- Page map for the C6 counterexample: `"cat dog"` appears verbatim only on
page 3. -/
def pmCatDog3 : Nat → Option String :=
  fun n =>
    if n = 1 then some "zzz" else if n = 2 then some "yyy"
    else if n = 3 then some "cat dog" else none

/-- Page map with an unambiguous match on page 3, used by witnesses. -/
def pmApple : Nat → Option String :=
  fun n =>
    if n = 1 then some "xxxx" else if n = 3 then some "the apple tree grows" else none

/-- A page map with no matching content at all. -/
def pmBlank : Nat → Option String := fun n => if n = 1 then some "zzzz zz" else none

/-- The list-item refusal sentence of the C5 counterexample, marker removed. -/
def cexNoInfoContent : List Char :=
  ['W', 'e', ' ', 'd', 'o', 'n', apos, 't'] ++ (" have information about that.").data

/-- The raw answer of the C5 counterexample: a single list-item refusal. -/
def cexNoInfoAnswer : String := String.mk ('-' :: ' ' :: cexNoInfoContent)

/-- A client state with a message in flight. -/
def stBusy : ClientState :=
  { documentProcessed := true, isProcessingMessage := true, sendButtonDisabled := true,
    messageInput := "pending", messages := [], pageTextContent := pmApple, totalPages := 3 }

/-- An idle client state, ready to send. -/
def stReady : ClientState :=
  { documentProcessed := true, isProcessingMessage := false, sendButtonDisabled := false,
    messageInput := "what grows", messages := [], pageTextContent := pmApple, totalPages := 3 }

/-- A client state before any document has been processed. -/
def stEmpty : ClientState :=
  { documentProcessed := false, isProcessingMessage := false, sendButtonDisabled := false,
    messageInput := "hello there", messages := [], pageTextContent := fun _ => none,
    totalPages := 0 }

/-- The empty page map. -/
def pmNone : Nat → Option String := fun _ => none

/-! ## Shared lemmas about the scoring loop -/

theorem ten_mul_countP {α : Type} (p : α → Bool) (l : List α) :
    10 * l.countP p = (l.map fun a => if p a then 10 else 0).sum := by
  induction l with
  | nil => simp
  | cons a t ih =>
    rw [List.countP_cons, List.map_cons, List.sum_cons, ← ih]
    by_cases h : p a = true
    · simp [h]
      omega
    · simp [h]

theorem stepBest_eq (cs : List Char) (ws : List (List Char)) (pm : Nat → Option String)
    (best : Nat × Nat) (p : Nat) :
    stepBest cs ws pm best p =
      if best.2 < effScore cs ws (pm p) then (p, effScore cs ws (pm p)) else best := by
  unfold stepBest effScore
  cases pm p with
  | none => simp
  | some t =>
    by_cases ht : t = ""
    · simp [ht]
    · simp [ht]

theorem stepBest_snd_le (cs : List Char) (ws : List (List Char)) (pm : Nat → Option String)
    (best : Nat × Nat) (p : Nat) : best.2 ≤ (stepBest cs ws pm best p).2 := by
  rw [stepBest_eq]
  split
  · exact Nat.le_of_lt (by assumption)
  · exact Nat.le_refl _

theorem scan_snd_le (cs : List Char) (ws : List (List Char)) (pm : Nat → Option String) :
    ∀ (L : List Nat) (best : Nat × Nat), best.2 ≤ (scanPages cs ws pm L best).2 := by
  intro L
  induction L with
  | nil => intro best; exact Nat.le_refl _
  | cons p rest ih =>
    intro best
    rw [scanPages]
    exact Nat.le_trans (stepBest_snd_le cs ws pm best p) (ih _)

theorem scan_mem_le (cs : List Char) (ws : List (List Char)) (pm : Nat → Option String) :
    ∀ (L : List Nat) (best : Nat × Nat) (p : Nat), p ∈ L →
      effScore cs ws (pm p) ≤ (scanPages cs ws pm L best).2 := by
  intro L
  induction L with
  | nil => intro best p hp; exact absurd hp (List.not_mem_nil p)
  | cons q rest ih =>
    intro best p hp
    rw [scanPages]
    rcases List.mem_cons.mp hp with hq | hr
    · subst hq
      refine Nat.le_trans ?_ (scan_snd_le cs ws pm rest _)
      rw [stepBest_eq]
      split
      · exact Nat.le_refl _
      · exact Nat.le_of_not_lt (by assumption)
    · exact ih _ p hr

theorem scan_origin (cs : List Char) (ws : List (List Char)) (pm : Nat → Option String) :
    ∀ (L : List Nat) (best : Nat × Nat),
      scanPages cs ws pm L best = best ∨
        ((scanPages cs ws pm L best).1 ∈ L ∧
          effScore cs ws (pm (scanPages cs ws pm L best).1) = (scanPages cs ws pm L best).2 ∧
          best.2 < (scanPages cs ws pm L best).2) := by
  intro L
  induction L with
  | nil => intro best; exact Or.inl rfl
  | cons p rest ih =>
    intro best
    rw [scanPages]
    rcases ih (stepBest cs ws pm best p) with h | ⟨h1, h2, h3⟩
    · rw [h, stepBest_eq]
      by_cases hlt : best.2 < effScore cs ws (pm p)
      · rw [if_pos hlt]
        exact Or.inr ⟨List.mem_cons_self p rest, rfl, hlt⟩
      · rw [if_neg hlt]
        exact Or.inl rfl
    · exact Or.inr ⟨List.mem_cons_of_mem p h1, h2,
        Nat.lt_of_le_of_lt (stepBest_snd_le cs ws pm best p) h3⟩

theorem scan_lowest (cs : List Char) (ws : List (List Char)) (pm : Nat → Option String) :
    ∀ (L : List Nat) (best : Nat × Nat), List.Pairwise (· < ·) L →
      (∀ q ∈ L, best.1 ≤ q) →
      ∀ p ∈ L, p < (scanPages cs ws pm L best).1 →
        effScore cs ws (pm p) < (scanPages cs ws pm L best).2 := by
  intro L
  induction L with
  | nil => intro best _ _ p hp; exact absurd hp (List.not_mem_nil p)
  | cons p rest ih =>
    intro best hpw hle q hq hlt
    obtain ⟨hhead, htail⟩ := List.pairwise_cons.mp hpw
    rw [scanPages] at hlt ⊢
    have hle' : ∀ r ∈ rest, (stepBest cs ws pm best p).1 ≤ r := by
      intro r hr
      rw [stepBest_eq]
      split
      · exact Nat.le_of_lt (hhead r hr)
      · exact hle r (List.mem_cons_of_mem p hr)
    rcases List.mem_cons.mp hq with rfl | hqr
    · rw [stepBest_eq] at hlt ⊢
      by_cases hup : best.2 < effScore cs ws (pm q)
      · rw [if_pos hup] at hlt ⊢
        rcases scan_origin cs ws pm rest (q, effScore cs ws (pm q)) with h | ⟨_, _, h3⟩
        · rw [h] at hlt
          exact absurd hlt (Nat.lt_irrefl q)
        · exact h3
      · rw [if_neg hup] at hlt ⊢
        rcases scan_origin cs ws pm rest best with h | ⟨_, _, h3⟩
        · rw [h] at hlt
          exact absurd (Nat.lt_of_le_of_lt (hle q hq) hlt) (Nat.lt_irrefl best.1)
        · exact Nat.lt_of_le_of_lt (Nat.le_of_not_lt hup) h3
    · exact ih (stepBest cs ws pm best p) htail hle' q hqr hlt

theorem mem_pageList {p tp : Nat} : p ∈ pageList tp ↔ 1 ≤ p ∧ p ≤ tp := by
  constructor
  · intro h
    simp only [pageList, List.mem_map, List.mem_range] at h
    obtain ⟨a, ha, rfl⟩ := h
    omega
  · intro h
    simp only [pageList, List.mem_map, List.mem_range]
    exact ⟨p - 1, by omega, by omega⟩

theorem pairwise_pageList (tp : Nat) : List.Pairwise (· < ·) (pageList tp) := by
  have h := List.pairwise_lt_range tp
  rw [pageList, List.pairwise_map]
  exact h.imp (by omega)

theorem scoreOfPage_def (segment : String) (pm : Nat → Option String) (p : Nat) :
    scoreOfPage segment pm p =
      effScore (cleanOf segment) (meaningfulWords (cleanOf segment)) (pm p) := rfl

theorem findPage_spec (s : String) (pm : Nat → Option String) (tp : Nat)
    (hs : ¬ s = "") (hw : ¬ meaningfulWords (cleanOf s) = []) :
    findPageForText (some s) pm tp =
      (if 0 < (scanPages (cleanOf s) (meaningfulWords (cleanOf s)) pm (pageList tp) (1, 0)).2
       then (scanPages (cleanOf s) (meaningfulWords (cleanOf s)) pm (pageList tp) (1, 0)).1
       else 1) := by
  simp only [findPageForText, hs, hw, if_false]

theorem findPage_pos (s : Option String) (pm : Nat → Option String) (tp : Nat) :
    1 ≤ findPageForText s pm tp := by
  cases s with
  | none => exact Nat.le_refl 1
  | some str =>
    by_cases h1 : str = ""
    · simp [findPageForText, h1]
    · by_cases h2 : meaningfulWords (cleanOf str) = []
      · simp [findPageForText, h1, h2]
      · rw [findPage_spec str pm tp h1 h2]
        split
        · rcases scan_origin (cleanOf str) (meaningfulWords (cleanOf str)) pm
            (pageList tp) (1, 0) with h | ⟨hm, _, _⟩
          · rw [h]
          · exact (mem_pageList.mp hm).1
        · exact Nat.le_refl 1

/-! ## Claim theorems -/

/-- C1 (counterexample): the claim's score — 10 points per DISTINCT content
word — disagrees with the code on a segment with a repeated content word:
the code's `forEach` scores the duplicate twice (20), the claim once (10). -/
theorem scoreCountsDuplicates_cex :
    segmentPageScore "word word" "a word here" ≠ claimScoreDistinct "word word" "a word here" ∧
    segmentPageScore "word word" "a word here" = 20 ∧
    claimScoreDistinct "word word" "a word here" = 10 := by decide

/-- C1 (amended): the attribution score equals 100 if the cleaned segment is
a substring of the page text, plus 10 for each content-word occurrence of
the segment found in the page text, occurrences counted with multiplicity
(a repeated word contributes once per repetition, not once). -/
theorem score_eq_claimScoreMulti (segment pageText : String) :
    segmentPageScore segment pageText = claimScoreMulti segment pageText := by
  simp only [segmentPageScore, claimScoreMulti, pageScore]
  rw [ten_mul_countP]

/-- C2 (counterexample): the substring test is NOT performed on
punctuation-free whitespace-collapsed forms: for segment `"Hello, world"`
and page `"hello world"` the code keeps the comma in the segment, misses
the substring match and scores 20, while the claim's fully normalized
scoring yields 120. -/
theorem scoreNormalization_cex :
    segmentPageScore "Hello, world" "hello world" ≠
      claimScoreNormalized "Hello, world" "hello world" ∧
    segmentPageScore "Hello, world" "hello world" = 20 ∧
    claimScoreNormalized "Hello, world" "hello world" = 120 := by decide

/-- C2 (amended): the segment is case-folded and trimmed but keeps its
punctuation for the substring test; punctuation is replaced by spaces only
while extracting content words; the page text is only case-folded (it was
whitespace-collapsed at extraction time); both tests run on these forms. -/
theorem score_eq_claimScoreCodeNorm (segment pageText : String) :
    segmentPageScore segment pageText = claimScoreCodeNorm segment pageText := by
  simp only [segmentPageScore, claimScoreCodeNorm, pageScore, meaningfulWords, cleanOf]
  rw [ten_mul_countP]

/-- C3 (counterexample): for the segment `"cat dog"` (no token longer than
3 characters) the routine returns page 1 even though page 2 scores strictly
higher (the verbatim match is worth 100), because the empty content-word
guard short-circuits before any page is scored. -/
theorem findPage_not_always_maximal_cex :
    findPageForText (some "cat dog") pmCatDog 2 = 1 ∧
    scoreOfPage "cat dog" pmCatDog 1 < scoreOfPage "cat dog" pmCatDog 2 := by decide

/-- C3 (amended): provided the segment has at least one content word, the
routine returns a page whose score is maximal among pages `1..totalPages`
(missing and empty pages scoring 0), and every strictly lower page scores
strictly less — so a tie at the maximal positive score goes to the lowest
page number. -/
theorem findPage_maximal_lowest (segment : String) (pm : Nat → Option String) (tp : Nat)
    (hw : ¬ meaningfulWords (cleanOf segment) = []) :
    (∀ p ∈ pageList tp,
        scoreOfPage segment pm p ≤
          scoreOfPage segment pm (findPageForText (some segment) pm tp)) ∧
    (∀ p ∈ pageList tp, p < findPageForText (some segment) pm tp →
        scoreOfPage segment pm p <
          scoreOfPage segment pm (findPageForText (some segment) pm tp)) := by
  by_cases hs : segment = ""
  · exact absurd (by rw [hs]; rfl) hw
  · rw [findPage_spec segment pm tp hs hw]
    split
    · rcases scan_origin (cleanOf segment) (meaningfulWords (cleanOf segment)) pm
        (pageList tp) (1, 0) with h | ⟨hm, heq, _⟩
      · rename_i hpos
        rw [h] at hpos
        exact absurd hpos (Nat.lt_irrefl 0)
      · constructor
        · intro p hp
          rw [scoreOfPage_def, scoreOfPage_def, heq]
          exact scan_mem_le _ _ pm (pageList tp) (1, 0) p hp
        · intro p hp hlt
          rw [scoreOfPage_def, scoreOfPage_def, heq]
          refine scan_lowest _ _ pm (pageList tp) (1, 0) (pairwise_pageList tp) ?_ p hp hlt
          intro q hq
          exact (mem_pageList.mp hq).1
    · rename_i hpos
      constructor
      · intro p hp
        have h1 : scoreOfPage segment pm p = 0 := by
          rw [scoreOfPage_def]
          have := scan_mem_le (cleanOf segment) (meaningfulWords (cleanOf segment)) pm
            (pageList tp) (1, 0) p hp
          omega
        rw [h1]
        exact Nat.zero_le _
      · intro p hp hlt
        exact absurd (Nat.lt_of_le_of_lt (mem_pageList.mp hp).1 hlt) (Nat.lt_irrefl 1)

/-- C3 (witness): a run of the amended theorem at a segment matching page 3
of the concrete page map: page 1 (lower) scores strictly less than the
returned page. -/
theorem findPage_maximal_lowest_witness :
    scoreOfPage "the apple tree" pmApple 1 <
      scoreOfPage "the apple tree" pmApple (findPageForText (some "the apple tree") pmApple 3) :=
  (findPage_maximal_lowest "the apple tree" pmApple 3 (by decide)).2 1 (by decide) (by decide)

/-- C4: if no page of `1..totalPages` attains a positive score for the
segment, the routine returns page 1; a null segment and a segment with no
content word longer than 3 characters also return page 1 outright. -/
theorem findPage_zero_score_default (s : String) (pm : Nat → Option String) (tp : Nat) :
    ((∀ p ∈ pageList tp, scoreOfPage s pm p = 0) → findPageForText (some s) pm tp = 1) ∧
    findPageForText none pm tp = 1 ∧
    (meaningfulWords (cleanOf s) = [] → findPageForText (some s) pm tp = 1) := by
  refine ⟨?_, rfl, ?_⟩
  · intro h
    by_cases hs : s = ""
    · simp [findPageForText, hs]
    · by_cases hw : meaningfulWords (cleanOf s) = []
      · simp [findPageForText, hs, hw]
      · rw [findPage_spec s pm tp hs hw]
        rcases scan_origin (cleanOf s) (meaningfulWords (cleanOf s)) pm
          (pageList tp) (1, 0) with h0 | ⟨hm, heq, _⟩
        · rw [h0]
          simp
        · have h1 := h _ hm
          rw [scoreOfPage_def, heq] at h1
          rw [h1]
          simp
  · intro hw
    by_cases hs : s = ""
    · simp [findPageForText, hs]
    · simp [findPageForText, hs, hw]

/-- C4 (witness): a segment whose only content word appears on no page is
attributed to page 1. -/
theorem findPage_zero_score_default_witness :
    findPageForText (some "hello") pmBlank 1 = 1 :=
  (findPage_zero_score_default "hello" pmBlank 1).1 (by decide)

/-- C6 (counterexample): the segment `"cat dog"` occurs verbatim on page 3
and on no other page, and has no content word at all (so its content words
trivially occur on no other page), yet the routine returns page 1, not
page 3: the empty content-word guard fires first. -/
theorem findPage_verbatim_page3_cex :
    pmCatDog3 3 = some "cat dog" ∧
    includesList (lowerChars (String.data "cat dog")) (cleanOf "cat dog") = true ∧
    includesList (lowerChars (String.data "zzz")) (cleanOf "cat dog") = false ∧
    includesList (lowerChars (String.data "yyy")) (cleanOf "cat dog") = false ∧
    meaningfulWords (cleanOf "cat dog") = [] ∧
    findPageForText (some "cat dog") pmCatDog3 3 = 1 ∧
    findPageForText (some "cat dog") pmCatDog3 3 ≠ 3 := by decide

/-- C6 (amended): provided the segment has at least one content word, if its
cleaned text occurs in page 3's text while neither the cleaned text nor any
content word occurs in any other page of `1..totalPages`, the routine
returns page 3. -/
theorem findPage_verbatim_page3 (s : String) (pm : Nat → Option String) (tp : Nat) (t3 : String)
    (hw : ¬ meaningfulWords (cleanOf s) = [])
    (htp : 3 ≤ tp)
    (hp3 : pm 3 = some t3) (ht3 : ¬ t3 = "")
    (hsub : includesList (lowerChars t3.data) (cleanOf s) = true)
    (hother : ∀ p ∈ pageList tp, p ≠ 3 →
        Option.all (fun t => !includesList (lowerChars t.data) (cleanOf s)
          && (meaningfulWords (cleanOf s)).all
               (fun w => !includesList (lowerChars t.data) w)) (pm p) = true) :
    findPageForText (some s) pm tp = 3 := by
  have hs : ¬ s = "" := by
    intro h
    exact hw (by rw [h]; rfl)
  have heff3 : 100 ≤ effScore (cleanOf s) (meaningfulWords (cleanOf s)) (pm 3) := by
    rw [hp3]
    simp only [effScore, ht3, if_false, pageScore, hsub, if_true]
    omega
  have heff0 : ∀ p ∈ pageList tp, p ≠ 3 →
      effScore (cleanOf s) (meaningfulWords (cleanOf s)) (pm p) = 0 := by
    intro p hp hne
    have h := hother p hp hne
    cases hpm : pm p with
    | none => simp [effScore]
    | some t =>
      rw [hpm] at h
      simp only [Option.all_some, Bool.and_eq_true, Bool.not_eq_true'] at h
      by_cases ht : t = ""
      · simp [effScore, ht]
      · simp only [effScore, ht, if_false, pageScore, h.1, if_false]
        have hz : (meaningfulWords (cleanOf s)).countP
            (fun w => includesList (lowerChars t.data) w) = 0 := by
          rw [List.countP_eq_zero]
          intro w hwmem
          rw [List.all_eq_true] at h
          exact (by simpa using h.2 w hwmem)
        rw [hz]
        simp
  have h3mem : 3 ∈ pageList tp := mem_pageList.mpr ⟨by omega, htp⟩
  rw [findPage_spec s pm tp hs hw]
  have hscan := scan_mem_le (cleanOf s) (meaningfulWords (cleanOf s)) pm
    (pageList tp) (1, 0) 3 h3mem
  have hpos : 0 < (scanPages (cleanOf s) (meaningfulWords (cleanOf s)) pm
      (pageList tp) (1, 0)).2 := by omega
  rw [if_pos hpos]
  rcases scan_origin (cleanOf s) (meaningfulWords (cleanOf s)) pm
    (pageList tp) (1, 0) with h0 | ⟨hm, heq, _⟩
  · rw [h0] at hpos
    exact absurd hpos (Nat.lt_irrefl 0)
  · by_contra hne
    have := heff0 _ hm hne
    rw [heq] at this
    omega

/-- C6 (witness): the segment `"the apple tree"` occurs verbatim only on
page 3 of the concrete map and is attributed to page 3. -/
theorem findPage_verbatim_page3_witness :
    findPageForText (some "the apple tree") pmApple 3 = 3 :=
  findPage_verbatim_page3 "the apple tree" pmApple 3 "the apple tree grows"
    (by decide) (by decide) (by decide) (by decide) (by decide) (by decide)

/-- C9: on every input — a null or empty segment, any page map (missing
pages, empty pages, zero total pages) — `findPageForText` is a total
function returning a page number that is at least 1. -/
theorem findPage_total_ge_one (searchText : Option String) (pm : Nat → Option String)
    (tp : Nat) : 1 ≤ findPageForText searchText pm tp :=
  findPage_pos searchText pm tp

/-- `String.mk` and `String.data` are inverse. -/
theorem data_mk (l : List Char) : (String.mk l).data = l := rfl

/-- C5 (counterexample): a list-item refusal sentence — it starts with a
dash and contains the phrase — is rendered WITH a page reference (page 1
here), because the phrase test sits only on the non-list branch. -/
theorem formatAIResponse_noinfo_bullet_cex :
    formatAIResponse cexNoInfoAnswer pmNone 1 =
      [⟨String.mk cexNoInfoContent, some 1, true⟩] ∧
    mentionsNoInfo cexNoInfoContent = true := by decide

/-- C5 (amended): a rendered segment carries no page exactly when it is a
non-list sentence containing the phrase; every other segment — including
every list item, even a refusal one — carries exactly one page reference,
which is at least 1. -/
theorem formatAIResponse_page_iff (answer : String) (pm : Nat → Option String) (tp : Nat) :
    ∀ seg ∈ formatAIResponse answer pm tp,
      (seg.page = none ↔ (seg.bullet = false ∧ mentionsNoInfo seg.text.data = true)) ∧
      (∀ p, seg.page = some p → 1 ≤ p) := by
  intro seg hseg
  simp only [formatAIResponse, List.mem_filterMap] at hseg
  obtain ⟨sentence, _, hrender⟩ := hseg
  unfold renderSentence at hrender
  by_cases h0 : jsTrim sentence.data = []
  · rw [if_pos h0] at hrender
    exact absurd hrender (by simp)
  · rw [if_neg h0] at hrender
    by_cases hb : isListMarker (jsTrim sentence.data) = true
    · rw [if_pos hb] at hrender
      obtain rfl := Option.some.inj hrender
      refine ⟨by simp, ?_⟩
      intro p hp
      obtain rfl := Option.some.inj hp
      exact findPage_pos _ pm tp
    · rw [if_neg hb] at hrender
      by_cases hn : mentionsNoInfo (jsTrim sentence.data) = true
      · rw [if_pos hn] at hrender
        obtain rfl := Option.some.inj hrender
        refine ⟨by simp [data_mk, hn], ?_⟩
        intro p hp
        exact absurd hp (by simp)
      · rw [if_neg hn] at hrender
        obtain rfl := Option.some.inj hrender
        refine ⟨by simp [data_mk, hn], ?_⟩
        intro p hp
        obtain rfl := Option.some.inj hp
        exact findPage_pos _ pm tp

/-- C5 (witness): the theorem applied to a one-sentence answer rendered as
a plain segment with a page reference. -/
theorem formatAIResponse_page_iff_witness :
    (⟨"The apple tree grows tall.", some 3, false⟩ : Segment).page = none ↔
      ((⟨"The apple tree grows tall.", some 3, false⟩ : Segment).bullet = false ∧
        mentionsNoInfo (Segment.text ⟨"The apple tree grows tall.", some 3, false⟩).data = true) :=
  (formatAIResponse_page_iff "The apple tree grows tall." pmApple 3
    ⟨"The apple tree grows tall.", some 3, false⟩ (by decide)).1

/-- C7: while no document has been processed, `sendMessage` is a no-op: the
`/chat` request is not issued (the returned flag is `false`) and the client
state is returned unchanged. -/
theorem sendMessage_requires_document (st : ClientState) (outcome : ChatOutcome)
    (h : st.documentProcessed = false) :
    sendMessage st outcome = (st, false) := by
  simp only [sendMessage]
  rw [if_pos (Or.inr (Or.inl h))]

/-- C7 (witness): the theorem at a concrete unprocessed state. -/
theorem sendMessage_requires_document_witness :
    sendMessage stEmpty ChatOutcome.networkError = (stEmpty, false) :=
  sendMessage_requires_document stEmpty ChatOutcome.networkError rfl

/-- C8: the attribution routine is pure and deterministic: run on the client
state it leaves the state unchanged, its result coincides with the pure
function of the segment, page map and page count, and two runs whose states
agree on the page map and the page count (whatever the other fields are)
return the same page. -/
theorem findPageForTextApp_pure (st st' : ClientState) (s : Option String)
    (hpm : st.pageTextContent = st'.pageTextContent) (htp : st.totalPages = st'.totalPages) :
    (findPageForTextApp st s).1 = (findPageForTextApp st' s).1 ∧
    (findPageForTextApp st s).2 = st ∧
    (findPageForTextApp st s).1 = findPageForText s st.pageTextContent st.totalPages := by
  refine ⟨?_, ?_, ?_⟩
  · cases s with
    | none => rfl
    | some str =>
      by_cases h1 : str = ""
      · simp [findPageForTextApp, h1]
      · by_cases h2 : meaningfulWords (cleanOf str) = []
        · simp [findPageForTextApp, h1, h2]
        · simp [findPageForTextApp, h1, h2, hpm, htp]
  · cases s with
    | none => rfl
    | some str =>
      by_cases h1 : str = ""
      · simp [findPageForTextApp, h1]
      · by_cases h2 : meaningfulWords (cleanOf str) = []
        · simp [findPageForTextApp, h1, h2]
        · simp [findPageForTextApp, h1, h2]
  · cases s with
    | none => rfl
    | some str =>
      by_cases h1 : str = ""
      · simp [findPageForTextApp, findPageForText, h1]
      · by_cases h2 : meaningfulWords (cleanOf str) = []
        · simp [findPageForTextApp, findPageForText, h1, h2]
        · simp [findPageForTextApp, findPageForText, h1, h2]

/-- C8 (witness): two states differing in every field except the page map
and page count produce the same attribution, without touching the state. -/
theorem findPageForTextApp_pure_witness :
    (findPageForTextApp stBusy (some "apple")).1 =
      (findPageForTextApp stReady (some "apple")).1 ∧
    (findPageForTextApp stBusy (some "apple")).2 = stBusy ∧
    (findPageForTextApp stBusy (some "apple")).1 =
      findPageForText (some "apple") stBusy.pageTextContent stBusy.totalPages :=
  findPageForTextApp_pure stBusy stReady (some "apple") rfl rfl

/-- C10: while a message is in flight (`isProcessingMessage` set), both
`sendMessage` and `askSuggestedQuestion` are no-ops that leave the state
unchanged and issue no request; and whenever `sendMessage` does issue the
request, the flag is false again on every exit path (success, failure
response, network error). -/
theorem message_flow_single_flight (st : ClientState) (outcome : ChatOutcome) (q : String) :
    (st.isProcessingMessage = true →
        sendMessage st outcome = (st, false) ∧
        askSuggestedQuestion st q outcome = (st, false)) ∧
    ((sendMessage st outcome).2 = true →
        ((sendMessage st outcome).1).isProcessingMessage = false) := by
  constructor
  · intro h
    refine ⟨?_, ?_⟩
    · simp only [sendMessage]
      rw [if_pos (Or.inr (Or.inr h))]
    · simp only [askSuggestedQuestion]
      rw [if_pos h]
  · intro h
    by_cases hc : String.mk (jsTrim st.messageInput.data) = "" ∨
        st.documentProcessed = false ∨ st.isProcessingMessage = true
    · exfalso
      simp only [sendMessage] at h
      rw [if_pos hc] at h
      exact Bool.false_ne_true h
    · simp only [sendMessage]
      rw [if_neg hc]

/-- C10 (witness): the no-op on a busy state and the cleared flag after a
completed send on a ready state. -/
theorem message_flow_single_flight_witness :
    sendMessage stBusy ChatOutcome.networkError = (stBusy, false) ∧
    ((sendMessage stReady ChatOutcome.networkError).1).isProcessingMessage = false :=
  ⟨((message_flow_single_flight stBusy ChatOutcome.networkError "q").1 rfl).1,
   (message_flow_single_flight stReady ChatOutcome.networkError "q").2 (by decide)⟩

end ChatWithDoc
